import Mathlib

/-!
Verification development for the glypy GlycoCT condensed parser
(`src/glypy/io/glycoct.py`), the WURCS parser
(`src/src/glypy/io/wurcs/parser.py`) and the enzyme graph container
(`src/glypy/enzyme/graph.py`).

Python values are embedded shallowly: dictionaries become association
lists over `String` keys, Python exceptions become constructors of an
error type returned through `Except`, and the random `uuid4().int`
identifier base becomes an explicit `Nat` parameter.
-/

namespace Glypy

/-- Atomic-loss letter of a linkage endpoint (`o`, `d`, `h`, `n`, `x`).
The Python code maps the letter through
`link_replacement_composition_map` to a `Composition`; that table lives in
`format_constants_map.py`, outside the provided sources, so the letter
itself stands for the loss. -/
abbrev Loss := Char

/-- An entry of a parser graph mapping: a concrete `Monosaccharide`
(only its integer id is tracked; the stereochemical fields parsed by
`res_pattern` are not needed by any claim), a concrete `Substituent`, or a
`RepeatRecord` stub referencing the repeat registry by repeat index. -/
inductive Entry where
  | mono (id : Int)
  | sub (name : String)
  | repRec (rix : String)
deriving DecidableEq, Repr

/-- A document-level or repeat-level mapping from source-local index
(string) to node, embedding the Python `dict`. -/
abbrev Doc := List (String × Entry)

/-- Python runtime exceptions that are not GlycoCT-specific. -/
inductive PErrKind where
  | keyError
  | attributeError
deriving DecidableEq, Repr

/-- Errors raised by the glycoct module. `format` embeds `GlycoCTError`,
`sectionUnsupported` embeds `GlycoCTSectionUnsupported` (in Python a
subclass of `GlycoCTError`, distinguishable by `isinstance`),
`valueError` embeds `ValueError`, and `pyError` embeds other runtime
exceptions such as `KeyError` and `AttributeError`. -/
inductive PErr where
  | format (msg : String)
  | sectionUnsupported (sec : String)
  | valueError (msg : String)
  | pyError (k : PErrKind)
deriving DecidableEq, Repr

/-! ## Repeat expansion (`RepeatRecord`, glycoct.py lines 243-325) -/

/-- Embedding of `StructurePrecisionEnum`. -/
inductive Precision where
  | unknown
  | exact
  | ranging
deriving DecidableEq, Repr

/-- `RepeatRecord.is_exact`: `unknown` when `-1 in self.multitude`,
`exact` when both bounds coincide, else `ranging`. -/
def is_exact (lo hi : Int) : Precision :=
  if lo = -1 ∨ hi = -1 then .unknown
  else if lo = hi then .exact
  else .ranging

/-- The copy count chosen by `RepeatRecord.expand_inner` when `n` is not
given: `multitude[1]` if not `-1`, else `multitude[0]` if not `-1`,
else `1`. -/
def defaultCopyCount (lo hi : Int) : Int :=
  if hi ≠ -1 then hi else if lo ≠ -1 then lo else 1

/-- The shape of the clone chain built by `expand_inner`: the graph starts
as `{1: clone}` and the loop `for i in range(2, n + 1)` adds clone `i`
decorated with copy index `i` and records a bond between clone `i - 1`
(at the internal-linkage parent index) and clone `i` (at the
internal-linkage child index). `copies` lists the decoration values,
`bonds` the adjacent pairs joined by `form_link`. -/
structure Expansion where
  copies : List Nat
  bonds : List (Nat × Nat)
deriving DecidableEq, Repr

/-- The clone chain for a requested count `n`: copies `1, 2, ..., n`
(the initial copy `1` always exists; `range(2, n + 1)` is empty for
`n < 2`) with a bond for each adjacent pair. -/
def cloneChain (n : Int) : Expansion :=
  ⟨1 :: List.range' 2 (n - 1).toNat,
   (List.range' 2 (n - 1).toNat).map (fun i => (i - 1, i))⟩

/-- `RepeatRecord.expand_inner`: choose `n` (explicit argument or
`defaultCopyCount`), validate `multitude[0] <= n <= multitude[1]` when
`is_exact()` is not `unknown` (raising `ValueError` otherwise), then
build the decorated clone chain. -/
def expand_inner (lo hi : Int) (nreq : Option Int) : Except PErr Expansion :=
  let n := match nreq with
    | some m => m
    | none => defaultCopyCount lo hi
  if is_exact lo hi ≠ .unknown ∧ ¬ (lo ≤ n ∧ n ≤ hi) then
    .error (.valueError "is not within the range")
  else
    .ok (cloneChain n)

theorem cloneChain_copies_length (n : Int) :
    (cloneChain n).copies.length = max 1 n.toNat := by
  simp only [cloneChain, List.length_cons, List.length_range']
  omega

theorem cloneChain_copies_eq (n : Int) :
    (cloneChain n).copies = List.range' 1 (max 1 n.toNat) := by
  have h : max 1 n.toNat = (n - 1).toNat + 1 := by omega
  rw [cloneChain, h, List.range'_succ]

theorem cloneChain_bonds_mem (n : Int) (p : Nat × Nat) :
    p ∈ (cloneChain n).bonds ↔ (p.1 = p.2 - 1 ∧ 2 ≤ p.2 ∧ p.2 ≤ max 1 n.toNat) := by
  simp only [cloneChain, List.mem_map, List.mem_range'_1]
  constructor
  · rintro ⟨i, ⟨hle, hlt⟩, rfl⟩
    refine ⟨rfl, by omega, by omega⟩
  · rintro ⟨h1, h2, h3⟩
    exact ⟨p.2, ⟨by omega, by omega⟩, by rw [← h1]⟩

theorem is_exact_ne_unknown (lo hi : Int) :
    is_exact lo hi ≠ .unknown ↔ ¬(lo = -1 ∨ hi = -1) := by
  simp only [is_exact]
  split_ifs with h h2 <;> simp [h]

theorem expand_inner_none_ok (lo hi : Int) (e : Expansion)
    (h : expand_inner lo hi none = .ok e) :
    e = cloneChain (defaultCopyCount lo hi) := by
  simp only [expand_inner] at h
  split_ifs at h with hc
  exact (Except.ok.injEq _ _).mp h.symm

/-- C1 (amended): when `expand_inner` is called without an explicit copy
count and succeeds, the clone chain has `max 1 n` copies, where `n` is the
upper multiplicity bound when it is known (not `-1`), otherwise the lower
bound when known, otherwise `1` — the first copy always exists, so a
non-positive chosen bound still yields one clone — and the bonds are
exactly the adjacent pairs `(i - 1, i)` for `2 ≤ i ≤ max 1 n`; in
particular bounds `(2, 4)` give 4 chained clones, `(-1, 3)` give 3,
`(2, -1)` give 2 and `(-1, -1)` give 1. -/
theorem C1_expansion_count :
    (∀ lo hi : Int, ∀ e : Expansion, expand_inner lo hi none = .ok e →
        e = cloneChain (defaultCopyCount lo hi) ∧
        e.copies.length = max 1 (defaultCopyCount lo hi).toNat ∧
        ∀ p : Nat × Nat, p ∈ e.bonds ↔
          (p.1 = p.2 - 1 ∧ 2 ≤ p.2 ∧ p.2 ≤ max 1 (defaultCopyCount lo hi).toNat)) ∧
    expand_inner 2 4 none = .ok (cloneChain 4) ∧
    (cloneChain 4).copies = [1, 2, 3, 4] ∧
    (cloneChain 4).bonds = [(1, 2), (2, 3), (3, 4)] ∧
    expand_inner (-1) 3 none = .ok (cloneChain 3) ∧
    (cloneChain 3).copies = [1, 2, 3] ∧
    (cloneChain 3).bonds = [(1, 2), (2, 3)] ∧
    expand_inner 2 (-1) none = .ok (cloneChain 2) ∧
    (cloneChain 2).copies = [1, 2] ∧
    (cloneChain 2).bonds = [(1, 2)] ∧
    expand_inner (-1) (-1) none = .ok (cloneChain 1) ∧
    (cloneChain 1).copies = [1] ∧
    (cloneChain 1).bonds = [] := by
  refine ⟨?_, rfl, rfl, rfl, rfl, rfl, rfl, rfl, rfl, rfl, rfl, rfl, rfl⟩
  intro lo hi e h
  have he := expand_inner_none_ok lo hi e h
  subst he
  exact ⟨rfl, cloneChain_copies_length _, cloneChain_bonds_mem _⟩

/-- Witness for the universally quantified part of `C1_expansion_count`,
instantiated at bounds `(2, 4)`. -/
theorem C1_expansion_count_witness :
    cloneChain 4 = cloneChain (defaultCopyCount 2 4) ∧
    (cloneChain 4).copies.length = max 1 (defaultCopyCount 2 4).toNat :=
  ⟨(C1_expansion_count.1 2 4 (cloneChain 4) rfl).1,
   (C1_expansion_count.1 2 4 (cloneChain 4) rfl).2.1⟩

/-- Counterexample to C1 as stated: a repeat with bounds `(-1, 0)` has a
known upper bound `0`, but `expand_inner` still produces one clone
(the initial copy `{1: ...}` exists before the `range(2, n + 1)` loop),
not `0` clones as the claim requires. -/
theorem C1_counterexample :
    expand_inner (-1) 0 none = .ok (cloneChain 0) ∧
    (cloneChain 0).copies.length = 1 ∧
    (cloneChain 0).copies.length ≠ (0 : Int).toNat := by
  exact ⟨rfl, rfl, by decide⟩

/-- C8: requesting a copy count `n` fails with the range `ValueError`
whenever both bounds are known (`≠ -1`) and `n` lies outside `[lo, hi]`;
when either bound is unknown (`-1`), no range validation failure occurs
for any requested `n`. -/
theorem C8_range_check :
    (∀ lo hi n : Int, lo ≠ -1 → hi ≠ -1 → (n < lo ∨ hi < n) →
        expand_inner lo hi (some n) = .error (.valueError "is not within the range")) ∧
    (∀ lo hi n : Int, (lo = -1 ∨ hi = -1) →
        expand_inner lo hi (some n) = .ok (cloneChain n)) := by
  constructor
  · intro lo hi n h1 h2 h3
    simp only [expand_inner]
    rw [if_pos]
    refine ⟨(is_exact_ne_unknown lo hi).mpr ?_, by omega⟩
    rintro (h | h) <;> [exact h1 h; exact h2 h]
  · intro lo hi n h
    simp only [expand_inner]
    rw [if_neg]
    rintro ⟨hu, _⟩
    exact (is_exact_ne_unknown lo hi).mp hu h

/-- Witness for `C8_range_check`: count 5 is rejected for bounds
`[2, 4]`, while bounds `(-1, 4)` accept count 100. -/
theorem C8_range_check_witness :
    expand_inner 2 4 (some 5) = .error (.valueError "is not within the range") ∧
    expand_inner (-1) 4 (some 100) = .ok (cloneChain 100) :=
  ⟨C8_range_check.1 2 4 5 (by decide) (by decide) (by decide),
   C8_range_check.2 (-1) 4 100 (Or.inl rfl)⟩

/-! ## Ambiguous-bond open-position resolution (spec §4.5) -/

/-- Failure of ambiguous-bond resolution (`NoOpenPositionError` in the
spec's taxonomy). -/
inductive LinkErr where
  | noOpenPosition
deriving DecidableEq, Repr

/-- Modelled from the spec: `AmbiguousLink.find_open_position` is defined
in `glypy.structure.link`, which is not among the provided source files —
only its callers `form_link` (glycoct.py line 145) and
`WURCSParser.parse_connectivity_map` (wurcs/parser.py line 95) are.
Per spec §4.5 it scans the candidate attachment positions in declaration
order, selects the first one not already occupied by another bond or
substituent on the node, and fails with `NoOpenPositionError` when every
candidate is occupied. -/
def find_open_position (occupied : List Int) : List Int → Except LinkErr Int
  | [] => .error .noOpenPosition
  | c :: rest =>
    if c ∈ occupied then find_open_position occupied rest else .ok c

/-- C4: resolution picks the first candidate position, in declaration
order, that is not occupied, and fails with `NoOpenPositionError` when all
candidates are occupied; in particular with positions `{2, 3, 4}` occupied
and candidates `3, 4, 5` in that order, the bond attaches at `5`. -/
theorem C4_open_position :
    (∀ (occupied pre suf : List Int) (r : Int),
        (∀ c ∈ pre, c ∈ occupied) → r ∉ occupied →
        find_open_position occupied (pre ++ r :: suf) = .ok r) ∧
    (∀ (occupied cs : List Int), (∀ c ∈ cs, c ∈ occupied) →
        find_open_position occupied cs = .error .noOpenPosition) ∧
    find_open_position [2, 3, 4] [3, 4, 5] = .ok 5 := by
  refine ⟨?_, ?_, rfl⟩
  · intro occupied pre
    induction pre with
    | nil =>
      intro suf r _ hr
      simp [find_open_position, hr]
    | cons a tl ih =>
      intro suf r hpre hr
      simp only [List.cons_append, find_open_position]
      rw [if_pos (hpre a (by simp))]
      exact ih suf r (fun c hc => hpre c (by simp [hc])) hr
  · intro occupied cs h
    induction cs with
    | nil => rfl
    | cons a tl ih =>
      simp only [find_open_position]
      rw [if_pos (h a (by simp))]
      exact ih (fun c hc => h c (by simp [hc]))

/-- Witness for `C4_open_position`: candidate 1 occupied, candidate 2
selected; a fully occupied candidate list fails. -/
theorem C4_open_position_witness :
    find_open_position [1] ([1] ++ 2 :: []) = .ok 2 ∧
    find_open_position [1] [1] = .error .noOpenPosition :=
  ⟨C4_open_position.1 [1] [1] [] 2 (by decide) (by decide),
   C4_open_position.2.1 [1] [1] (by decide)⟩

/-! ## Final identifier assignment (`undecorate_tree`, glycoct.py 221-240) -/

/-- `undecorate_tree`: starting from the 128-bit random base
`i = uuid4().int` (embedded as the explicit parameter `seed`, since the
random draw is an input to the shallow embedding), walk `tree.index` in
order assigning `node.id = i; i += 1`. The result pairs each node with
its assigned final identifier. -/
def undecorate_tree (seed : Nat) (nodes : List α) : List (α × Nat) :=
  nodes.zip (List.range' seed nodes.length)

theorem undecorate_tree_ids (seed : Nat) (nodes : List α) :
    (undecorate_tree seed nodes).map Prod.snd = List.range' seed nodes.length := by
  rw [undecorate_tree, List.map_snd_zip]
  simp

/-- C5 (amended): within one finished graph the assigned identifiers are
pairwise distinct, unconditionally; across two graphs finished in the same
run, the identifier sets are disjoint whenever the two random `uuid4`
bases are far enough apart that the consecutive ranges do not overlap
(which holds with overwhelming probability but is not absolute). -/
theorem C5_identifier_uniqueness :
    (∀ (seed : Nat) (nodes : List String),
        ((undecorate_tree seed nodes).map Prod.snd).Nodup) ∧
    (∀ (seed1 seed2 : Nat) (nodes1 nodes2 : List String),
        (seed1 + nodes1.length ≤ seed2 ∨ seed2 + nodes2.length ≤ seed1) →
        ∀ i ∈ (undecorate_tree seed1 nodes1).map Prod.snd,
          i ∉ (undecorate_tree seed2 nodes2).map Prod.snd) := by
  constructor
  · intro seed nodes
    rw [undecorate_tree_ids]
    exact List.nodup_range' seed nodes.length
  · intro seed1 seed2 nodes1 nodes2 hsep i hi1 hi2
    rw [undecorate_tree_ids, List.mem_range'_1] at hi1 hi2
    omega

/-- Witness for `C5_identifier_uniqueness`: a two-node graph at base 0 and
a one-node graph at base 100. -/
theorem C5_identifier_uniqueness_witness :
    ((undecorate_tree 0 ["a", "b"]).map Prod.snd).Nodup ∧
    (0 : Nat) ∉ (undecorate_tree 100 ["c"]).map Prod.snd :=
  ⟨C5_identifier_uniqueness.1 0 ["a", "b"],
   C5_identifier_uniqueness.2 0 100 ["a", "b"] ["c"] (Or.inl (by decide))
     0 (by decide)⟩

/-- Counterexample to C5 as stated: `uuid4().int` is a random draw, so
nothing in the code prevents the two runs from drawing the same base; if
the base is equal (here `0`), both graphs receive identifier `0` and the
identifier sets are not disjoint. -/
theorem C5_counterexample :
    (undecorate_tree 0 ["a"]).map Prod.snd = [0] ∧
    (undecorate_tree 0 ["b"]).map Prod.snd = [0] ∧
    (0 : Nat) ∈ (undecorate_tree 0 ["a"]).map Prod.snd ∧
    (0 : Nat) ∈ (undecorate_tree 0 ["b"]).map Prod.snd := by
  exact ⟨rfl, rfl, by decide, by decide⟩

/-! ## EnzymeGraph equality (enzyme/graph.py) -/

/-- `EnzymeGraph` (enzyme/graph.py lines 15-21): holds the two-level
`graph` mapping and the `seeds` set. The contents are abstracted as type
parameters; `__eq__` only ever consults the `graph` attribute. -/
structure EnzymeGraph (G S : Type) where
  graph : G
  seeds : S

/-- `EnzymeGraph.__init__`: `self.seeds` starts empty, `seeds` defaults to
`self.parentless()` when `None` is passed, and the chosen set is added
with `update`. -/
def EnzymeGraph.init (parentless : G → S) (graph : G) (seeds : Option S) :
    EnzymeGraph G S :=
  ⟨graph, match seeds with
    | some s => s
    | none => parentless graph⟩

/-- `EnzymeGraph.__eq__` (lines 166-167): `self.graph == other.graph`. -/
def EnzymeGraph.eq [DecidableEq G] (a b : EnzymeGraph G S) : Bool :=
  decide (a.graph = b.graph)

/-- `EnzymeGraph.__ne__` (lines 169-170): `self.graph != other.graph`. -/
def EnzymeGraph.ne [DecidableEq G] (a b : EnzymeGraph G S) : Bool :=
  decide (¬ a.graph = b.graph)

/-- C10: equality and inequality of `EnzymeGraph` instances depend only on
the `graph` mappings — replacing the seed sets on both sides never changes
the comparison result, and two instances with equal graphs but different
seeds compare equal. -/
theorem C10_eq_ignores_seeds :
    (∀ (G S : Type) [DecidableEq G] (a b : EnzymeGraph G S) (s s' : S),
        (EnzymeGraph.eq a b = true ↔ a.graph = b.graph) ∧
        EnzymeGraph.eq ⟨a.graph, s⟩ ⟨b.graph, s'⟩ = EnzymeGraph.eq a b ∧
        EnzymeGraph.ne ⟨a.graph, s⟩ ⟨b.graph, s'⟩ = EnzymeGraph.ne a b) ∧
    EnzymeGraph.eq (⟨5, 1⟩ : EnzymeGraph Nat Nat) ⟨5, 2⟩ = true ∧
    EnzymeGraph.ne (⟨5, 1⟩ : EnzymeGraph Nat Nat) ⟨5, 2⟩ = false := by
  refine ⟨?_, by decide, by decide⟩
  intro G S _ a b s s'
  exact ⟨by simp [EnzymeGraph.eq], rfl, rfl⟩

/-- Witness for `C10_eq_ignores_seeds` at concrete `Nat` instances. -/
theorem C10_eq_ignores_seeds_witness :
    (EnzymeGraph.eq (⟨3, 7⟩ : EnzymeGraph Nat Nat) ⟨3, 9⟩ = true ↔
      (3 : Nat) = 3) :=
  (C10_eq_ignores_seeds.1 Nat Nat ⟨3, 7⟩ ⟨3, 9⟩ 7 9).1

/-! ## Parser state and linkage handling (glycoct.py 396-546) -/

/-- Lookup in a Python `dict` embedded as an association list. -/
def lookupA (l : List (String × α)) (k : String) : Option α :=
  (l.find? (fun kv => kv.1 == k)).map (fun kv => kv.2)

/-- Key assignment `d[k] = v` on a `dict` embedded as an association
list: replaces the existing binding or appends a new one. -/
def insertA (l : List (String × α)) (k : String) (v : α) : List (String × α) :=
  match l with
  | [] => [(k, v)]
  | (k', v') :: rest =>
    if k' = k then (k, v) :: rest else (k', v') :: insertA rest k v

/-- The parsed components of a LIN-section line, as returned by
`parse_link` (lines 113-130). The attachment positions are already split
on `|` and converted with `int`; the atom-replaced letters stand for the
compositions of `link_replacement_composition_map`. -/
structure LinkLine where
  id : Option String
  parentIx : String
  parentLoss : Loss
  parentPos : List Int
  childIx : String
  childLoss : Loss
  childPos : List Int
deriving DecidableEq, Repr

/-- The handler slot of a postponed operation: `handle_outgoing_link` of
the repeat that was the linkage's parent, or `handle_incoming_link` of
the repeat that was the linkage's child. -/
inductive Handler where
  | outgoing (repIx : String)
  | incoming (repIx : String)
deriving DecidableEq, Repr

/-- A deferred operation record, embedding the tuple appended to
`self.postponed` by `handle_linkage` (lines 567-580): the bound handler
method, the `deferred_retrieval` thunk (captured by the index it will
look up), the two attachment-position lists, the two atomic losses, and
the document-local linkage id. -/
structure PostOp where
  handler : Handler
  retrieveIx : String
  parentPos : List Int
  parentLoss : Loss
  childPos : List Int
  childLoss : Loss
  id : Option String
deriving DecidableEq, Repr

/-- A bond record created by `form_link` (lines 133-150). Registration of
the bond into the two nodes' adjacency (and, for `AmbiguousLink`, the
`find_open_position` call against the nodes' occupancy) happens inside
`glypy.structure.link`, outside the provided sources; the record keeps
the endpoints and parameters. `child` is an `Option` because
`handle_outgoing_link` can pass the result of a failed deferred
retrieval (Python `None`). `ambiguous` is true when either endpoint
declared more than one candidate position (an `AmbiguousLink` was
built). -/
structure LinkRec where
  parent : Entry
  child : Option Entry
  parentPos : List Int
  childPos : List Int
  parentLoss : Loss
  childLoss : Loss
  id : Option String
  ambiguous : Bool
deriving DecidableEq, Repr

/-- `form_link` (lines 133-150): `parent.node_type` on a `None` parent
raises `AttributeError`; a substituent parent with a monosaccharide child
only emits a warning; then an `AmbiguousLink` (which receives `id`) is
created when either side has more than one candidate position, else a
`Link` — to which the Python code does not pass `id`, so the id is
dropped for unambiguous bonds. -/
def form_link (parent child : Option Entry) (parentPos childPos : List Int)
    (parentLoss childLoss : Loss) (id : Option String) :
    Except PErr LinkRec :=
  match parent with
  | none => .error (.pyError .attributeError)
  | some p =>
    if parentPos.length > 1 ∨ childPos.length > 1 then
      .ok ⟨p, child, parentPos, childPos, parentLoss, childLoss, id, true⟩
    else
      .ok ⟨p, child, parentPos, childPos, parentLoss, childLoss, none, false⟩

/-- The mutable state of a `GlycoCT` parser instance (lines 408-426),
restricted to the fields the dispatch loop reads and writes. `links`
records the bonds formed so far (the adjacency side effect of `Link`
construction); `docs` the documents yielded so far (each yielded document
is modelled by its graph mapping; finishing is modelled separately by
`postprocessTrace`, `expand_inner` and `undecorate_tree`). The repeat
registry maps repeat index to the repeat's capture mapping. -/
structure MState where
  state : String
  inRepeat : Bool
  graph : Doc
  root : Option Entry
  repeats : List (String × Doc)
  currentRepeat : Option String
  postponed : List PostOp
  links : List LinkRec
  docs : List Doc
deriving DecidableEq, Repr

/-- `GlycoCT.get_node` (lines 539-546): inside a repeat the current
repeat's mapping is consulted first, falling back to the document mapping
on `KeyError`; `self.current_repeat.graph` with no current repeat raises
`AttributeError`; a key absent everywhere raises `KeyError`. (A
`currentRepeat` index absent from the registry cannot arise in Python,
where `current_repeat` is a live object reference; the embedding falls
back to the document mapping there.) -/
def MState.get_node (st : MState) (ix : String) : Except PErr Entry :=
  if st.inRepeat then
    match st.currentRepeat with
    | none => .error (.pyError .attributeError)
    | some rix =>
      match (lookupA st.repeats rix).bind (fun d => lookupA d ix) with
      | some e => .ok e
      | none =>
        match lookupA st.graph ix with
        | some e => .ok e
        | none => .error (.pyError .keyError)
  else
    match lookupA st.graph ix with
    | some e => .ok e
    | none => .error (.pyError .keyError)

/-- `GlycoCT.handle_linkage` (lines 548-585): resolve both endpoint
indices with `get_node`; a `RepeatRecord` parent defers to
`handle_outgoing_link` with a retrieval thunk for the child index; a
`RepeatRecord` child defers to `handle_incoming_link` with a retrieval
thunk for the parent index; otherwise `form_link` executes
immediately. -/
def handle_linkage (st : MState) (ln : LinkLine) : Except PErr MState :=
  match st.get_node ln.parentIx with
  | .error e => .error e
  | .ok parent =>
    match st.get_node ln.childIx with
    | .error e => .error e
    | .ok child =>
      match parent with
      | .repRec rix =>
        .ok { st with postponed := st.postponed ++
          [⟨.outgoing rix, ln.childIx, ln.parentPos, ln.parentLoss,
            ln.childPos, ln.childLoss, ln.id⟩] }
      | _ =>
        match child with
        | .repRec rix =>
          .ok { st with postponed := st.postponed ++
            [⟨.incoming rix, ln.parentIx, ln.parentPos, ln.parentLoss,
              ln.childPos, ln.childLoss, ln.id⟩] }
        | _ =>
          match form_link (some parent) (some child) ln.parentPos ln.childPos
              ln.parentLoss ln.childLoss ln.id with
          | .error e => .error e
          | .ok lr => .ok { st with links := st.links ++ [lr] }

/-- C3: a linkage line whose endpoints both resolve to concrete nodes
instantiates its bond immediately (appended to the adjacency, deferred
list untouched); a linkage line either of whose endpoints resolves to a
`RepeatRecord` creates no bond and instead appends one deferred operation
record — handler, retrieval thunk index, position and loss parameters,
and id — to the postponed-operation list. -/
theorem C3_linkage_dispatch :
    (∀ (st : MState) (ln : LinkLine) (p c : Entry),
        st.get_node ln.parentIx = .ok p →
        st.get_node ln.childIx = .ok c →
        (∀ r, p ≠ .repRec r) → (∀ r, c ≠ .repRec r) →
        handle_linkage st ln = .ok { st with links := st.links ++
          [⟨p, some c, ln.parentPos, ln.childPos, ln.parentLoss, ln.childLoss,
            (if ln.parentPos.length > 1 ∨ ln.childPos.length > 1 then ln.id else none),
            (decide (ln.parentPos.length > 1 ∨ ln.childPos.length > 1))⟩] }) ∧
    (∀ (st : MState) (ln : LinkLine) (rix : String) (c : Entry),
        st.get_node ln.parentIx = .ok (.repRec rix) →
        st.get_node ln.childIx = .ok c →
        handle_linkage st ln = .ok { st with postponed := st.postponed ++
          [⟨.outgoing rix, ln.childIx, ln.parentPos, ln.parentLoss,
            ln.childPos, ln.childLoss, ln.id⟩] }) ∧
    (∀ (st : MState) (ln : LinkLine) (p : Entry) (rix : String),
        st.get_node ln.parentIx = .ok p → (∀ r, p ≠ .repRec r) →
        st.get_node ln.childIx = .ok (.repRec rix) →
        handle_linkage st ln = .ok { st with postponed := st.postponed ++
          [⟨.incoming rix, ln.parentIx, ln.parentPos, ln.parentLoss,
            ln.childPos, ln.childLoss, ln.id⟩] }) := by
  refine ⟨?_, ?_, ?_⟩
  · intro st ln p c hp hc hpr hcr
    cases p with
    | repRec r => exact absurd rfl (hpr r)
    | mono i =>
      cases c with
      | repRec r => exact absurd rfl (hcr r)
      | mono j =>
        simp only [handle_linkage, hp, hc, form_link]
        split_ifs with h <;> simp [h]
      | sub nm =>
        simp only [handle_linkage, hp, hc, form_link]
        split_ifs with h <;> simp [h]
    | sub nm =>
      cases c with
      | repRec r => exact absurd rfl (hcr r)
      | mono j =>
        simp only [handle_linkage, hp, hc, form_link]
        split_ifs with h <;> simp [h]
      | sub nm2 =>
        simp only [handle_linkage, hp, hc, form_link]
        split_ifs with h <;> simp [h]
  · intro st ln rix c hp hc
    simp only [handle_linkage, hp, hc]
  · intro st ln p rix hp hpr hc
    cases p with
    | repRec r => exact absurd rfl (hpr r)
    | mono i => simp only [handle_linkage, hp, hc]
    | sub nm => simp only [handle_linkage, hp, hc]

/-- Witness for `C3_linkage_dispatch`: a document with residues `1`, `2`
and a repeat stub `3`; linking `1 → 2` forms the bond at once, linking
`1 → 3` defers. -/
theorem C3_linkage_dispatch_witness :
    handle_linkage
      ⟨"LIN", false, [("1", .mono 1), ("2", .mono 2), ("3", .repRec "1")],
        some (.mono 1), [("1", [])], none, [], [], []⟩
      ⟨some "1", "1", 'o', [4], "2", 'd', [1]⟩ =
      .ok ⟨"LIN", false, [("1", .mono 1), ("2", .mono 2), ("3", .repRec "1")],
        some (.mono 1), [("1", [])], none, [],
        [⟨.mono 1, some (.mono 2), [4], [1], 'o', 'd', none, false⟩], []⟩ ∧
    handle_linkage
      ⟨"LIN", false, [("1", .mono 1), ("2", .mono 2), ("3", .repRec "1")],
        some (.mono 1), [("1", [])], none, [], [], []⟩
      ⟨some "2", "1", 'o', [6], "3", 'd', [1]⟩ =
      .ok ⟨"LIN", false, [("1", .mono 1), ("2", .mono 2), ("3", .repRec "1")],
        some (.mono 1), [("1", [])], none,
        [⟨.incoming "1", "1", [6], 'o', [1], 'd', some "2"⟩], [], []⟩ :=
  ⟨C3_linkage_dispatch.1 _ ⟨some "1", "1", 'o', [4], "2", 'd', [1]⟩
      (.mono 1) (.mono 2) rfl rfl (by intro r h; cases h) (by intro r h; cases h),
   C3_linkage_dispatch.2.2 _ ⟨some "2", "1", 'o', [6], "3", 'd', [1]⟩
      (.mono 1) "1" rfl (by intro r h; cases h) rfl⟩

/-! ## Deferred retrieval (glycoct.py 460-468, 327-337) -/

/-- The view of a `RepeatRecord` that `deferred_retrieval` consults:
`keys` are the source-local indices of `original_graph` (the
pre-expansion capture — the `self.orignal_graph` misspelling at line 290
makes the `try` body always fail, so `original_graph[k] = self.graph[k]`
is what runs), embedding `__contains__`; `getNode` embeds
`get_node(id, direction)`, the lookup into the first clone (direction
`None`/`"in"`) or last clone (`"out"`) of the expanded graph. -/
structure RepeatView where
  keys : List String
  getNode : String → Option Entry

/-- `GlycoCT.deferred_retrieval` (lines 460-468): the returned thunk
tries `self.graph[id]`, then on `KeyError` scans the registered repeats
for the first one whose capture contains the index and returns its
`get_node` result; when no repeat matches, the `for` loop falls through
and the thunk returns Python `None` — no error is raised. -/
def deferred_retrieval (graph : Doc) (repeats : List (String × RepeatView))
    (ix : String) : Option Entry :=
  match lookupA graph ix with
  | some e => some e
  | none =>
    match repeats.find? (fun kv => kv.2.keys.contains ix) with
    | some kv => kv.2.getNode ix
    | none => none

/-- `RepeatRecord.handle_incoming_link` (lines 327-337): `parent()` is
the deferred retrieval result (passed here already invoked); `child` is
the first clone's node at the external linkage's child index (passed
here already resolved); when the parent loss is `Composition("H")`
(letter `h`) the child loss is replaced by `Composition("OH")` (letter
`o`); then `form_link` runs — with a `None` parent it raises
`AttributeError` at `parent.node_type` (line 135). -/
def handle_incoming_link (parent : Option Entry) (childNode : Entry)
    (parentPos : List Int) (parentLoss : Loss)
    (childPos : List Int) (childLoss : Loss) (id : Option String) :
    Except PErr LinkRec :=
  form_link parent (some childNode) parentPos childPos parentLoss
    (if parentLoss = 'h' then 'o' else childLoss) id

/-- C7 (amended): when a deferred operation's retrieval thunk finds the
referenced index neither in the document mapping nor in any registered
repeat's capture, it returns `None` — the code raises no dedicated
unresolved-reference error (no such error class exists in the module) —
and the replayed handler then fails with the incidental `AttributeError`
from `form_link` dereferencing the `None` parent. -/
theorem C7_unresolved_retrieval :
    (∀ (graph : Doc) (repeats : List (String × RepeatView)) (ix : String),
        lookupA graph ix = none →
        (∀ kv ∈ repeats, kv.2.keys.contains ix = false) →
        deferred_retrieval graph repeats ix = none) ∧
    (∀ (childNode : Entry) (pp cp : List Int) (pl cl : Loss)
        (id : Option String),
        handle_incoming_link none childNode pp pl cp cl id =
          .error (.pyError .attributeError)) := by
  constructor
  · intro graph repeats ix hg hr
    rw [deferred_retrieval, hg]
    have : repeats.find? (fun kv => kv.2.keys.contains ix) = none := by
      rw [List.find?_eq_none]
      intro kv hkv
      simpa using hr kv hkv
    rw [this]
  · intro childNode pp cp pl cl id
    rfl

/-- Witness for `C7_unresolved_retrieval`: an empty document with no
repeats cannot resolve index `1`, and the incoming-link handler fails
with `AttributeError` on the `None` parent. -/
theorem C7_unresolved_retrieval_witness :
    deferred_retrieval [] [] "1" = none ∧
    handle_incoming_link none (.mono 1) [1] 'h' [1] 'x' none =
      .error (.pyError .attributeError) :=
  ⟨C7_unresolved_retrieval.1 [] [] "1" rfl (by intro kv hkv; cases hkv),
   C7_unresolved_retrieval.2 (.mono 1) [1] [1] 'h' 'x' none⟩

/-- Counterexample to C7 as stated: at the concrete unresolvable input
(empty document mapping, no repeats, index `1`) the retrieval thunk
returns `None` rather than raising, and the subsequent replay of the
deferred incoming-link handler fails with the generic `AttributeError`
(from `parent.node_type` on `None` in `form_link`), not with a dedicated
`UnresolvedReferenceError` — the module defines no such error class. -/
theorem C7_counterexample :
    deferred_retrieval [] [] "1" = none ∧
    handle_incoming_link (deferred_retrieval [] [] "1") (.mono 1)
        [4] 'h' [1] 'd' (some "1") = .error (.pyError .attributeError) :=
  ⟨rfl, rfl⟩

/-! ## Finishing order (`GlycoCT.postprocess`, glycoct.py 595-616) -/

/-- One step of the finishing pass, for tracing its order. -/
inductive FinishEvent where
  | expandRepeat (rix : String)
  | applyDeferred (k : Nat)
  | assignFinalIds
deriving DecidableEq, Repr

/-- `GlycoCT.postprocess` (lines 595-616) as an event trace: the first
loop calls `repeater.expand_inner()` once for every entry of the repeat
registry; the second loop replays `self.postponed` in list (capture)
order — `applyDeferred k` stands for the `k`-th captured operation —
and finally `undecorate_tree` assigns the fresh final identifiers to the
assembled structure. -/
def postprocessTrace (repeatIxs : List String) (postponed : List PostOp) :
    List FinishEvent :=
  repeatIxs.map .expandRepeat ++
    (List.range postponed.length).map .applyDeferred ++ [.assignFinalIds]

/-- Projection extracting the replayed-operation index of an event. -/
def replayIndex : FinishEvent → Option Nat
  | .applyDeferred k => some k
  | _ => none

theorem postprocessTrace_expand_lt (repeatIxs : List String)
    (postponed : List PostOp) (i : Nat) (r : String)
    (h : (postprocessTrace repeatIxs postponed)[i]? =
      some (.expandRepeat r)) :
    i < repeatIxs.length := by
  by_contra hge
  push_neg at hge
  simp only [postprocessTrace, List.append_assoc] at h
  rw [List.getElem?_append_right (by simpa using hge)] at h
  have hmem := List.getElem?_mem h
  rcases List.mem_append.mp hmem with hm | hm
  · rcases List.mem_map.mp hm with ⟨k, _, hk⟩
    cases hk
  · cases List.mem_singleton.mp hm

theorem postprocessTrace_replay_ge (repeatIxs : List String)
    (postponed : List PostOp) (j : Nat) (k : Nat)
    (h : (postprocessTrace repeatIxs postponed)[j]? =
      some (.applyDeferred k)) :
    repeatIxs.length ≤ j := by
  by_contra hlt
  push_neg at hlt
  simp only [postprocessTrace, List.append_assoc] at h
  rw [List.getElem?_append_left (by simpa using hlt)] at h
  have hmem := List.getElem?_mem h
  rcases List.mem_map.mp hmem with ⟨r, _, hr⟩
  cases hr

/-- C2: the finishing pass first expands every repeat registered in the
registry exactly once each, only afterwards replays the deferred
operations — in exactly their original capture (declaration) order, so
two deferred linkages referencing the same placeholder are applied in
declaration order — and assigns the final identifiers only after both
phases. -/
theorem C2_finishing_order (repeatIxs : List String) (postponed : List PostOp)
    (hnd : repeatIxs.Nodup) :
    (∀ r ∈ repeatIxs,
        (postprocessTrace repeatIxs postponed).count (.expandRepeat r) = 1) ∧
    ((postprocessTrace repeatIxs postponed).filterMap replayIndex =
        List.range postponed.length) ∧
    (∀ (i j : Nat) (r : String) (k : Nat),
        (postprocessTrace repeatIxs postponed)[i]? = some (.expandRepeat r) →
        (postprocessTrace repeatIxs postponed)[j]? = some (.applyDeferred k) →
        i < j) ∧
    ((postprocessTrace repeatIxs postponed).getLast? = some .assignFinalIds ∧
      ∀ e ∈ (postprocessTrace repeatIxs postponed).dropLast,
        e ≠ .assignFinalIds) := by
  refine ⟨?_, ?_, ?_, ?_, ?_⟩
  · intro r hr
    rw [postprocessTrace]
    rw [List.count_append, List.count_append]
    have h1 : (repeatIxs.map FinishEvent.expandRepeat).count (.expandRepeat r)
        = 1 := by
      rw [List.count_eq_one_of_mem (hnd.map (fun a b h => by cases h; rfl))
        (List.mem_map_of_mem _ hr)]
    have h2 : ((List.range postponed.length).map
        FinishEvent.applyDeferred).count (.expandRepeat r) = 0 := by
      rw [List.count_eq_zero]
      intro hmem
      rcases List.mem_map.mp hmem with ⟨k, _, hk⟩
      cases hk
    have h3 : ([FinishEvent.assignFinalIds] : List FinishEvent).count
        (.expandRepeat r) = 0 := by
      rw [List.count_eq_zero]
      intro hmem
      cases List.mem_singleton.mp hmem
    omega
  · rw [postprocessTrace, List.filterMap_append, List.filterMap_append]
    have h1 : (repeatIxs.map FinishEvent.expandRepeat).filterMap replayIndex
        = [] := by
      rw [List.filterMap_map]
      exact List.filterMap_eq_nil_iff.mpr (fun a _ => rfl)
    have h2 : ((List.range postponed.length).map
        FinishEvent.applyDeferred).filterMap replayIndex
        = List.range postponed.length := by
      rw [List.filterMap_map]
      exact List.filterMap_some _
    have h3 : ([FinishEvent.assignFinalIds] : List FinishEvent).filterMap
        replayIndex = [] := rfl
    rw [h1, h2, h3, List.nil_append, List.append_nil]
  · intro i j r k hie hje
    have h1 := postprocessTrace_expand_lt repeatIxs postponed i r hie
    have h2 := postprocessTrace_replay_ge repeatIxs postponed j k hje
    omega
  · rw [postprocessTrace]
    exact List.getLast?_concat _
  · rw [postprocessTrace, List.dropLast_concat]
    intro e he
    rcases List.mem_append.mp he with hm | hm
    · rcases List.mem_map.mp hm with ⟨r, _, hr⟩
      rw [← hr]
      intro hcontra
      cases hcontra
    · rcases List.mem_map.mp hm with ⟨kk, _, hk⟩
      rw [← hk]
      intro hcontra
      cases hcontra

/-- Witness for `C2_finishing_order`: one registered repeat and one
captured operation. -/
theorem C2_finishing_order_witness :
    (postprocessTrace ["1"] [⟨.incoming "1", "1", [1], 'o', [1], 'd', none⟩]).count
        (.expandRepeat "1") = 1 ∧
    (postprocessTrace ["1"] [⟨.incoming "1", "1", [1], 'o', [1], 'd', none⟩]).filterMap
        replayIndex = List.range 1 :=
  ⟨(C2_finishing_order ["1"] [⟨.incoming "1", "1", [1], 'o', [1], 'd', none⟩]
      (by simp)).1 "1" (by simp),
   (C2_finishing_order ["1"] [⟨.incoming "1", "1", [1], 'o', [1], 'd', none⟩]
      (by simp)).2.1⟩

/-! ## The dispatch loop (`GlycoCT.parse`, glycoct.py 618-676) -/

/-- Section keyword constants (glycoct.py lines 48-53). -/
def START : String := "!START"

/-- The `RES` section keyword. -/
def RES : String := "RES"

/-- The `LIN` section keyword. -/
def LIN : String := "LIN"

/-- The `REP` section keyword. -/
def REP : String := "REP"

/-- The `ALT` section keyword (recognized but unsupported). -/
def ALT : String := "ALT"

/-- The `UND` section keyword (recognized but unsupported). -/
def UND : String := "UND"

/-- Embedding of `re.search(r"^(\d+)b", line)`: one or more leading
digits followed by `b`. -/
def matchesResidue (s : String) : Bool :=
  !(s.takeWhile Char.isDigit).isEmpty &&
    (s.drop (s.takeWhile Char.isDigit).length).startsWith "b"

/-- Embedding of `re.search(r"^(\d+)s:", line)`. -/
def matchesSub (s : String) : Bool :=
  !(s.takeWhile Char.isDigit).isEmpty &&
    (s.drop (s.takeWhile Char.isDigit).length).startsWith "s:"

/-- Embedding of `re.search(r"^(\d+)r:", line)`. -/
def matchesStub (s : String) : Bool :=
  !(s.takeWhile Char.isDigit).isEmpty &&
    (s.drop (s.takeWhile Char.isDigit).length).startsWith "r:"

/-- Embedding of `re.search(r"^(\d+):(\d+)", line)`. -/
def matchesLink (s : String) : Bool :=
  !(s.takeWhile Char.isDigit).isEmpty &&
    (s.drop (s.takeWhile Char.isDigit).length).startsWith ":" &&
    !((s.drop ((s.takeWhile Char.isDigit).length + 1)).takeWhile
        Char.isDigit).isEmpty

/-- The atom-replaced charset `[odhnx]` of `link_pattern`. -/
def isLossChar (c : Char) : Bool :=
  c = 'o' || c = 'd' || c = 'h' || c = 'n' || c = 'x'

/-- The attachment-position charset `[0-9\-\|]` of `link_pattern`. -/
def posChar (c : Char) : Bool :=
  c.isDigit || c = '-' || c = '|'

/-- Decimal value of a digit string, as `int` computes it. -/
def digitsToNat (cs : List Char) : Nat :=
  cs.foldl (fun a c => a * 10 + (c.toNat - 48)) 0

/-- Python `int(s)` on a possibly-signed decimal string; `none` embeds
the `ValueError` on any other content. -/
def strToInt? (s : String) : Option Int :=
  if s.startsWith "-" then
    let t := s.drop 1
    if !t.isEmpty && t.toList.all Char.isDigit then
      some (-(digitsToNat t.toList : Int))
    else none
  else if !s.isEmpty && s.toList.all Char.isDigit then
    some (digitsToNat s.toList)
  else none

/-- `map(int, fragment.split("|"))` on an attachment-position fragment. -/
def parsePositions (s : String) : Option (List Int) :=
  (s.splitOn "|").mapM strToInt?

/-- `parse_link` (lines 113-130): split a LIN-section token into its
components following `link_pattern`, anchored at the token start (which
the dispatch guard `^(\d+):(\d+)` guarantees; the single-character
backtracking a regex engine performs when the `[+\-]` separator is `-`
and the position charset consumed it is not reproduced — every claim
exercises `+`-separated linkages). A failed pattern match raises
`GlycoCTError("Could not interpret link")`; `int()` failures on position
fragments raise `ValueError`. -/
def parse_link (tok : String) : Except PErr LinkLine :=
  let cs := tok.toList
  let docIx := cs.takeWhile Char.isDigit
  match cs.drop docIx.length with
  | ':' :: rest1 =>
    let pIx := rest1.takeWhile Char.isDigit
    if pIx.isEmpty then .error (.format "Could not interpret link") else
    match rest1.drop pIx.length with
    | pAtom :: '(' :: rest2 =>
      if !isLossChar pAtom then .error (.format "Could not interpret link") else
      let pPosChars := rest2.takeWhile posChar
      match rest2.drop pPosChars.length with
      | sep :: rest3 =>
        if !(sep = '+' || sep = '-') then
          .error (.format "Could not interpret link") else
        let cPosChars := rest3.takeWhile posChar
        match rest3.drop cPosChars.length with
        | ')' :: rest4 =>
          let cIx := rest4.takeWhile Char.isDigit
          if cIx.isEmpty then .error (.format "Could not interpret link") else
          match rest4.drop cIx.length with
          | [cAtom] =>
            if !isLossChar cAtom then
              .error (.format "Could not interpret link") else
            match parsePositions (String.mk pPosChars),
                parsePositions (String.mk cPosChars) with
            | some pp, some cp =>
              .ok ⟨if docIx.isEmpty then none else some (String.mk docIx),
                   String.mk pIx, pAtom, pp, String.mk cIx, cAtom, cp⟩
            | _, _ => .error (.valueError "invalid literal for int")
          | _ => .error (.format "Could not interpret link")
        | _ => .error (.format "Could not interpret link")
      | _ => .error (.format "Could not interpret link")
    | _ => .error (.format "Could not interpret link")
  | _ => .error (.format "Could not interpret link")

/-- Store a residue or substituent into the mapping chosen by
`self.in_repeat` (the current repeat's capture, else the document
mapping); `self.current_repeat.graph` with no current repeat raises
`AttributeError`. -/
def storeActive (st : MState) (ix : String) (e : Entry) :
    Except PErr MState :=
  if st.inRepeat then
    match st.currentRepeat with
    | none => .error (.pyError .attributeError)
    | some rix =>
      match lookupA st.repeats rix with
      | none => .error (.pyError .keyError)
      | some d =>
        .ok { st with repeats := insertA st.repeats rix (insertA d ix e) }
  else
    .ok { st with graph := insertA st.graph ix e }

/-- `GlycoCT.handle_residue_line` (lines 470-518): create the
`Monosaccharide` for the line (its stereochemical fields, parsed from
`res_pattern`, are abstracted — only `residue.id = int(ix)` is kept),
store it in the active mapping, and make it (or the current repeat,
inside a repeat section) the provisional root when none is set. -/
def handle_residue_line (st : MState) (tok : String) : Except PErr MState :=
  let ix := tok.takeWhile Char.isDigit
  let residue := Entry.mono (digitsToNat ix.toList)
  match storeActive st ix residue with
  | .error e => .error e
  | .ok st' =>
    if st'.root.isNone then
      if st'.inRepeat then
        .ok { st' with root := st'.currentRepeat.map Entry.repRec }
      else
        .ok { st' with root := some residue }
    else
      .ok st'

/-- `GlycoCT.handle_residue_substituent` (lines 520-537): create the
`Substituent` from the text after `<ix>s:` and store it in the active
mapping; the root is not touched. -/
def handle_residue_substituent (st : MState) (tok : String) :
    Except PErr MState :=
  let ix := tok.takeWhile Char.isDigit
  let name := (tok.drop (ix.length + 2)).trim
  storeActive st ix (Entry.sub name)

/-- `GlycoCT.handle_repeat_stub` (lines 587-593): match
`^(\d+)r:r(\d+)` (a failed match raises `AttributeError` via
`.groupdict()` on `None`), store a fresh `RepeatRecord` under the graph
index in the document mapping — always the document mapping, even inside
a repeat — and under the repeat index in the registry. -/
def handle_repeat_stub (st : MState) (tok : String) : Except PErr MState :=
  let gIx := tok.takeWhile Char.isDigit
  let rest := tok.drop (gIx.length + 2)
  if !rest.startsWith "r" then .error (.pyError .attributeError)
  else
    let rIx := (rest.drop 1).takeWhile Char.isDigit
    if rIx.isEmpty then .error (.pyError .attributeError)
    else .ok { st with graph := insertA st.graph gIx (.repRec rIx),
                       repeats := insertA st.repeats rIx [] }

/-- The `REP<k>:...` header branch (lines 641-654): `rep_header_pattern`
extracts the repeat index (a failed match raises `AttributeError`; the
`=` between internal linkage and multitude is required — the linkage and
multitude fields themselves are stored on the record and consumed by
`expand_inner`, modelled separately); `self.repeats[repeat_index]`
raises `KeyError` when the index was never declared by a stub; then
`current_repeat` is set and the state returns to `START`. -/
def handle_rep_header (st : MState) (tok : String) : Except PErr MState :=
  let rIx := (tok.drop 3).takeWhile Char.isDigit
  if rIx.isEmpty || !((tok.drop (3 + rIx.length)).startsWith ":")
      || !(tok.contains '=') then
    .error (.pyError .attributeError)
  else if (lookupA st.repeats rIx).isNone then
    .error (.pyError .keyError)
  else
    .ok { st with currentRepeat := some rIx, state := START }

/-- Attach the documents yielded so far to an error escaping the
dispatch loop (the consumer of the generator already received them). -/
def liftStep (docs : List Doc) : Except PErr MState →
    Except (PErr × List Doc) MState
  | .ok st => .ok st
  | .error e => .error (e, docs)

/-- The initial parser state (`GlycoCT.__init__`, lines 408-426). -/
def initState : MState :=
  ⟨START, false, [], none, [], none, [], [], []⟩

/-- One iteration of the dispatch loop of `GlycoCT.parse` (lines
623-674), on one whitespace/semicolon-delimited token. The branches
mirror the `elif` chain: `RES` (finishing and yielding a non-repeat
document in progress, then resetting the per-document state — `_reset`
clears `graph`, `root` and `postponed` but neither the repeat registry
nor `current_repeat` nor `in_repeat`), `LIN` (fatal before `RES`),
`REP`, a `REP<k>:` header, the unsupported `ALT` and `UND` keywords,
then the content lines gated by the current state, and the catch-all
`GlycoCTError("Unknown format error: ...")`. -/
def pstep (st : MState) (tok : String) : Except (PErr × List Doc) MState :=
  if tok = RES then
    if st.root.isSome ∧ ¬ st.inRepeat then
      .ok { st with state := RES, docs := st.docs ++ [st.graph],
                    graph := [], root := none, postponed := [] }
    else
      .ok { st with state := RES }
  else if tok = LIN then
    if st.state ≠ RES then .error (.format "LIN before RES", st.docs)
    else .ok { st with state := LIN }
  else if tok = REP then
    .ok { st with state := REP, inRepeat := true }
  else if tok.take 3 = REP then
    if ¬ st.inRepeat then
      .error (.format ("Encountered " ++ tok ++ " outside of REP"), st.docs)
    else liftStep st.docs (handle_rep_header st tok)
  else if tok = ALT then .error (.sectionUnsupported ALT, st.docs)
  else if tok = UND then .error (.sectionUnsupported UND, st.docs)
  else if matchesResidue tok ∧ st.state = RES then
    liftStep st.docs (handle_residue_line st tok)
  else if matchesSub tok ∧ st.state = RES then
    liftStep st.docs (handle_residue_substituent st tok)
  else if matchesStub tok ∧ st.state = RES then
    liftStep st.docs (handle_repeat_stub st tok)
  else if matchesLink tok ∧ st.state = LIN then
    liftStep st.docs
      (match parse_link tok with
       | .error e => .error e
       | .ok ln => handle_linkage st ln)
  else
    .error (.format ("Unknown format error: " ++ tok), st.docs)

/-- Run the dispatch loop over a token list. -/
def prun (st : MState) : List String → Except (PErr × List Doc) MState
  | [] => .ok st
  | t :: ts =>
    match pstep st t with
    | .ok st' => prun st' ts
    | .error e => .error e

/-- `GlycoCT.parse` (lines 618-676): run the dispatch loop over the
tokens of the stream, then `self.in_repeat = False` and a final
`yield self.postprocess()`. The final yield calls `rootp(self.root)`,
which fails on an empty document (`root` is `None`); the finishing
pass itself is modelled by `postprocessTrace`, `expand_inner` and
`undecorate_tree`, so a yielded document is represented by its graph
mapping. -/
def parse (toks : List String) : Except (PErr × List Doc) (List Doc) :=
  match prun initState toks with
  | .ok st =>
    match st.root with
    | none => .error (.pyError .attributeError, st.docs)
    | some _ => .ok (st.docs ++ [st.graph])
  | .error e => .error e

theorem prun_append (st : MState) (l1 l2 : List String) :
    prun st (l1 ++ l2) = match prun st l1 with
      | .ok st' => prun st' l2
      | .error e => .error e := by
  induction l1 generalizing st with
  | nil => rfl
  | cons t ts ih =>
    simp only [List.cons_append, prun]
    cases pstep st t with
    | ok st' => exact ih st'
    | error e => rfl

theorem pstep_ALT (st : MState) :
    pstep st "ALT" = .error (.sectionUnsupported ALT, st.docs) := rfl

theorem pstep_UND (st : MState) :
    pstep st "UND" = .error (.sectionUnsupported UND, st.docs) := rfl

/-- C6 (amended): whenever the dispatch loop reaches an `ALT` or `UND`
keyword token (the preceding tokens having been consumed without error),
parsing fails with `GlycoCTSectionUnsupported` — a class distinct from
(and distinguishable by callers from) the generic `GlycoCTError` — and
the document under construction is not yielded: the yielded documents
are exactly those completed before the keyword. -/
theorem C6_unsupported_sections :
    (∀ (pre rest : List String) (st : MState),
        prun initState pre = .ok st →
        parse (pre ++ "ALT" :: rest) =
          .error (.sectionUnsupported ALT, st.docs)) ∧
    (∀ (pre rest : List String) (st : MState),
        prun initState pre = .ok st →
        parse (pre ++ "UND" :: rest) =
          .error (.sectionUnsupported UND, st.docs)) ∧
    (∀ msg : String, (PErr.sectionUnsupported ALT ≠ .format msg) ∧
        (PErr.sectionUnsupported UND ≠ .format msg)) := by
  refine ⟨?_, ?_, ?_⟩
  · intro pre rest st hpre
    rw [parse, prun_append, hpre]
    simp only [prun, pstep_ALT]
  · intro pre rest st hpre
    rw [parse, prun_append, hpre]
    simp only [prun, pstep_UND]
  · intro msg
    exact ⟨nofun, nofun⟩

/-- Witness for `C6_unsupported_sections`: the stream `RES ALT` fails
with the unsupported-section error and yields nothing. -/
theorem C6_unsupported_sections_witness :
    parse (["RES"] ++ "ALT" :: []) = .error (.sectionUnsupported ALT, []) :=
  C6_unsupported_sections.1 ["RES"] []
    ⟨"RES", false, [], none, [], none, [], [], []⟩ rfl

/-- Counterexample to C6 as stated: the stream `LIN ALT` contains the
`ALT` keyword, yet parsing fails with the generic
`GlycoCTError("LIN before RES")` raised for the earlier out-of-order
keyword, not with `GlycoCTSectionUnsupported`. -/
theorem C6_counterexample :
    parse ["LIN", "ALT"] = .error (.format "LIN before RES", []) ∧
    PErr.format "LIN before RES" ≠ .sectionUnsupported ALT ∧
    PErr.format "LIN before RES" ≠ .sectionUnsupported UND :=
  ⟨rfl, nofun, nofun⟩

/-! ## WURCS connectivity (src/src/glypy/io/wurcs/parser.py) -/

/-- `WURCSFeatureNotSupported` errors raised by the WURCS parser. -/
inductive WErr where
  | featureNotSupported (msg : String)
deriving DecidableEq, Repr

/-- The left brace character of the `"{" in section` test. -/
def braceL : Char := Char.ofNat 123

/-- The right brace character of the `"}" in section` test. -/
def braceR : Char := Char.ofNat 125

/-- Python `s.split(sep)` on a string represented by its character list:
`"".split` gives `[""]`, and every separator occurrence opens a new
(possibly empty) token. -/
def splitChars (sep : Char) : List Char → List (List Char)
  | [] => [[]]
  | c :: rest =>
    if c = sep then [] :: splitChars sep rest
    else
      match splitChars sep rest with
      | [] => [[c]]
      | t :: ts => (c :: t) :: ts

/-- Python `len(set(links)) == 1` for the (never-empty) result of
`section.split("_")`: every token equals the first. -/
def allSameTokens : List (List Char) → Bool
  | [] => false
  | a :: rest => rest.all (fun x => x == a)

/-- `WURCSParser.parse_connectivity_map` (lines 49-107), reduced to its
decision value, over the connectivity section represented by its
character list: `False` (degrade to a composition) for an empty section;
when the section contains a brace, `False` if there is more than one
`_`-separated link token and all of them are identical (an unordered
self-referential linkage set — "everybody is ambiguously linked to
everybody"), else `WURCSFeatureNotSupported` for braced undefined
linkages; otherwise each link token is materialized as a bond between
the declared nodes (a `*` bridge raises `WURCSFeatureNotSupported`; the
adjacency side effects and the `find_open_position` call for ambiguous
links are abstracted) and the result is `True` (build a structured
graph). -/
def parse_connectivity_map (sec : List Char) : Except WErr Bool :=
  if sec = [] then .ok false
  else if braceL ∈ sec ∨ braceR ∈ sec then
    if 1 < (splitChars '_' sec).length ∧
        allSameTokens (splitChars '_' sec) then
      .ok false
    else
      .error (.featureNotSupported "Braced Undefined Linkages are not supported")
  else if ∃ l ∈ splitChars '_' sec, '*' ∈ l then
    .error (.featureNotSupported "Bridging MAPs are not supported.")
  else .ok true

/-- `WURCSParser._to_composition` (lines 109-113): count every node of
`node_index_to_node` into a `GlycanComposition` — one increment per
declared residue, so the result is the multiset of the declared
residues. Residues are represented by their node-type strings. -/
def to_composition (nodes : List String) : Multiset String :=
  (nodes : Multiset String)

/-- The tail of `WURCSParser.parse` (lines 142-144): a structured glycan
rooted at node 0 (represented by `Sum.inl` of the declared node list)
when `parse_connectivity_map` returns `True`, else `Sum.inr` of the
unordered composition. -/
def wurcsParseResult (nodes : List String) (sec : List Char) :
    Except WErr (List String ⊕ Multiset String) :=
  match parse_connectivity_map sec with
  | .error e => .error e
  | .ok true => .ok (.inl nodes)
  | .ok false => .ok (.inr (to_composition nodes))

theorem splitChars_ne_nil (sep : Char) (l : List Char) :
    splitChars sep l ≠ [] := by
  cases l with
  | nil => simp [splitChars]
  | cons c rest =>
    simp only [splitChars]
    split_ifs
    · simp
    · cases h : splitChars sep rest <;> simp

theorem mem_of_mem_splitChars (sep c : Char) (sec t : List Char)
    (ht : t ∈ splitChars sep sec) (hc : c ∈ t) : c ∈ sec := by
  induction sec generalizing t with
  | nil =>
    simp only [splitChars, List.mem_singleton] at ht
    subst ht
    cases hc
  | cons d rest ih =>
    simp only [splitChars] at ht
    split_ifs at ht with hd
    · rcases List.mem_cons.mp ht with h | h
      · subst h
        cases hc
      · exact List.mem_cons_of_mem _ (ih t h hc)
    · cases hsp : splitChars sep rest with
      | nil => exact absurd hsp (splitChars_ne_nil _ _)
      | cons t0 ts =>
        rw [hsp] at ht
        rcases List.mem_cons.mp ht with h | h
        · subst h
          rcases List.mem_cons.mp hc with h | h
          · subst h
            exact List.mem_cons_self _ _
          · exact List.mem_cons_of_mem _
              (ih t0 (by rw [hsp]; exact List.mem_cons_self _ _) h)
        · exact List.mem_cons_of_mem _
            (ih t (by rw [hsp]; exact List.mem_cons_of_mem _ h) hc)

/-- C9: a WURCS connectivity section that splits into more than one link
token, all identical and containing a brace, makes `parse` return the
unordered composition — the multiset counting the declared residues —
and never a structured rooted graph. -/
theorem C9_composition_degradation :
    ∀ (nodes : List String) (sec : List Char) (tks : List (List Char)),
      splitChars '_' sec = tks →
      1 < tks.length →
      allSameTokens tks = true →
      (∃ t ∈ tks, braceL ∈ t ∨ braceR ∈ t) →
      wurcsParseResult nodes sec = .ok (.inr (to_composition nodes)) ∧
      ∀ g, wurcsParseResult nodes sec ≠ .ok (.inl g) := by
  intro nodes sec tks hsplit hlen hsame hbrace
  have hsne : sec ≠ [] := by
    intro hempty
    rw [hempty] at hsplit
    rw [← hsplit] at hlen
    simp [splitChars] at hlen
  have hany : braceL ∈ sec ∨ braceR ∈ sec := by
    rcases hbrace with ⟨t, ht, hor⟩
    rw [← hsplit] at ht
    rcases hor with h | h
    · exact Or.inl (mem_of_mem_splitChars _ _ _ _ ht h)
    · exact Or.inr (mem_of_mem_splitChars _ _ _ _ ht h)
  have hmap : parse_connectivity_map sec = .ok false := by
    rw [parse_connectivity_map, if_neg hsne, if_pos hany, if_pos]
    rw [hsplit]
    exact ⟨hlen, hsame⟩
  constructor
  · rw [wurcsParseResult, hmap]
  · intro g
    rw [wurcsParseResult, hmap]
    intro hcontra
    cases hcontra

/-- Witness for `C9_composition_degradation`: the two-token section
`{a}_{a}` over two declared residues yields the composition. -/
theorem C9_composition_degradation_witness :
    wurcsParseResult ["u1", "u2"]
        [braceL, 'a', braceR, '_', braceL, 'a', braceR] =
      .ok (.inr (to_composition ["u1", "u2"])) :=
  (C9_composition_degradation ["u1", "u2"]
    [braceL, 'a', braceR, '_', braceL, 'a', braceR]
    [[braceL, 'a', braceR], [braceL, 'a', braceR]] (by decide) (by decide)
    (by decide)
    ⟨[braceL, 'a', braceR], by decide, Or.inl (by decide)⟩).1

end Glypy
